import Mathlib

/-!
Shallow embedding of the subtitle-generation core of the
podcast-video-processor repository.

The repository contains two near-duplicate serverless handlers
(src/api/process-job.js using a native ffmpeg binary, and an unnamed
variant using the WASM build).  Both embed a copy of `createAssSubtitle`,
which converts a dialogue transcript plus an audio duration into an ASS
subtitle document.  Only that pure core is embedded here; the surrounding
I/O orchestration is out of scope.

Modelling conventions:
  * JavaScript numbers are modelled by `JSNum`: an exact rational together
    with the special values NaN, +Infinity and -Infinity.  Arithmetic is
    exact (no double rounding); every concrete input used in a theorem
    below is exactly representable as an IEEE double and its arithmetic
    here is exact in doubles as well.
  * `new Date(t)` clips its argument: a non-finite time value, or one of
    magnitude above 8.64e15 milliseconds, yields an invalid date whose
    getUTC* accessors all return NaN; otherwise the time value is
    truncated to an integer count of milliseconds.  `getUTCHours` is the
    hour of day, i.e. reduced modulo 24.
  * `String(n)` for a number is modelled by decimal rendering
    (`natStr` / `intStr`); `padStart(k, '0')` by `padZero k`.
  * `line.split(/\s+/).filter(Boolean)` is modelled by `wordsOf`:
    the maximal runs of non-whitespace characters.  `trim()` is
    modelled by `jsTrim`.
-/

/-- One transcript segment: `{ line: string }` in the job payload. -/
structure Segment where
  line : String
deriving DecidableEq, Repr

/-- The `dialogue` array of the job payload, in playback order. -/
abbrev Dialogue := List Segment

/-- A JavaScript number: an exact rational, or one of the special values. -/
inductive JSNum where
  | num (q : ℚ)
  | nan
  | inf
  | negInf
deriving DecidableEq, Repr

/-- `isNaN(x)` for a number argument. -/
def jsIsNaN : JSNum → Bool
  | JSNum.nan => true
  | _ => false

/-- The comparison `x < 0` in JavaScript (false on NaN). -/
def jsLtZero : JSNum → Bool
  | JSNum.num q => decide (q < 0)
  | JSNum.negInf => true
  | _ => false

/-- The whitespace class of the regex `\s` (ASCII part; the transcript
lines of interest contain no exotic Unicode space characters). -/
def isJsWhitespace (c : Char) : Bool :=
  c = ' ' || c = '\t' || c = '\n' || c = '\r' || c = '\x0b' || c = '\x0c'

/-- Accumulator pass behind `wordsOf`: collects maximal runs of
non-whitespace characters (the current partial word is kept reversed). -/
def wordsAux : List Char → List Char → List String
  | [], acc => if acc.isEmpty then [] else [String.mk acc.reverse]
  | c :: cs, acc =>
    if isJsWhitespace c then
      if acc.isEmpty then wordsAux cs []
      else String.mk acc.reverse :: wordsAux cs []
    else wordsAux cs (c :: acc)

/-- `line.split(/\s+/).filter(Boolean)`: the non-empty whitespace-delimited
tokens of a line. -/
def wordsOf (s : String) : List String := wordsAux s.data []

/-- `s.trim()`: strip leading and trailing whitespace. -/
def jsTrim (s : String) : String :=
  String.mk (((s.data.dropWhile isJsWhitespace).reverse.dropWhile isJsWhitespace).reverse)

/-- The decimal digit character for `d < 10`. -/
def digitChar (d : Nat) : Char := Char.ofNat (48 + d)

/-- Fuel-driven decimal rendering helper (fuel `n + 1` always suffices). -/
def natToCharsAux : Nat → Nat → List Char → List Char
  | 0, _, acc => acc
  | fuel + 1, n, acc =>
    if n < 10 then digitChar n :: acc
    else natToCharsAux fuel (n / 10) (digitChar (n % 10) :: acc)

/-- Decimal digits of a natural number, most significant first. -/
def natToChars (n : Nat) : List Char := natToCharsAux (n + 1) n []

/-- JavaScript `String(n)` for a non-negative integer. -/
def natStr (n : Nat) : String := String.mk (natToChars n)

/-- JavaScript `String(i)` for an integer (`String(-0)` is `"0"`). -/
def intStr (i : ℤ) : String :=
  if i < 0 then "-" ++ natStr i.natAbs else natStr i.toNat

/-- `s.padStart(n, '0')`. -/
def padZero (n : Nat) (s : String) : String :=
  String.mk (List.replicate (n - s.length) '0' ++ s.data)

/-- `Math.round(q)`: round half toward positive infinity. -/
def jsRound (q : ℚ) : ℤ := ⌊q + 1 / 2⌋

/-- The largest time value (in milliseconds) accepted by `new Date`;
beyond it the date is invalid. -/
def dateClipBound : ℚ := 8640000000000000

/-- What `formatTime` renders from an invalid date: each getUTC* accessor
returns NaN, `String(NaN)` is `"NaN"`, and `padStart(2, '0')` leaves a
3-character string unchanged. -/
def nanTimestamp : String := "NaN:NaN:NaN.NaN"

/-- The four fields `formatTime` extracts from a valid date holding `ms`
milliseconds: hour of day, minute, second, centisecond, fed through
`String(...)` and `padStart`. -/
def mkTimestamp (ms : Nat) : String :=
  padZero 1 (natStr (ms / 3600000 % 24)) ++ ":" ++
  padZero 2 (natStr (ms / 60000 % 60)) ++ ":" ++
  padZero 2 (natStr (ms / 1000 % 60)) ++ "." ++
  padZero 2 (natStr (ms % 1000 / 10))

/-- The `formatTime` closure of `createAssSubtitle` (identical in both
handler variants): sanitize NaN and negative inputs to 0, build
`new Date(seconds * 1000)` and render `H:MM:SS.CC` from its getUTC*
fields.  A non-finite or out-of-range time value gives an invalid date,
whose fields all render as `"NaN"`. -/
def formatTime (seconds : JSNum) : String :=
  let s := if jsIsNaN seconds || jsLtZero seconds then JSNum.num 0 else seconds
  match s with
  | JSNum.num q =>
      if 1000 * q > dateClipBound then nanTimestamp
      else mkTimestamp (Int.toNat ⌊1000 * q⌋)
  | _ => nanTimestamp

/-- The karaoke tag for one word. -/
def karaokeTag (wordDuration : ℚ) : String :=
  "\x7b\\k" ++ intStr (jsRound (wordDuration * 100)) ++ "\x7d"

/-- The inner `for (const word of words)` loop: accumulates
`lineWithKaraokeTags` and advances `currentTime` by the word duration. -/
def wordsLoop (avg : ℚ) : List String → String × ℚ → String × ℚ
  | [], acc => acc
  | w :: ws, (line, t) =>
      wordsLoop avg ws (line ++ (karaokeTag avg ++ (w ++ " ")), t + avg)

/-- One rendered `Dialogue:` event line (without its trailing newline). -/
def dialogueLine (startTime endTime : ℚ) (line : String) : String :=
  "Dialogue: 0," ++ formatTime (JSNum.num startTime) ++ "," ++
  formatTime (JSNum.num endTime) ++ ",DefaultV2,,0,0,0,," ++ jsTrim line

/-- The structured trace of the `for (const segment of dialogue)` loop:
for each segment, its `segmentStartTime`, `segmentEndTime` and
`lineWithKaraokeTags` (before trim). -/
def segEvents (avg : ℚ) : Dialogue → ℚ → List (ℚ × ℚ × String)
  | [], _ => []
  | seg :: rest, t =>
      let p := wordsLoop avg (wordsOf seg.line) ("", t)
      (t, p.2, p.1) :: segEvents avg rest p.2

/-- The `events` string accumulated by the segment loop. -/
def eventsStr (avg : ℚ) : Dialogue → ℚ → String → String
  | [], _, ev => ev
  | seg :: rest, t, ev =>
      let p := wordsLoop avg (wordsOf seg.line) ("", t)
      eventsStr avg rest p.2 (ev ++ (dialogueLine t p.2 p.1 ++ "\n"))

/-- The value of `currentTime` once the segment loop has finished. -/
def finalTime (avg : ℚ) : Dialogue → ℚ → ℚ
  | [], t => t
  | seg :: rest, t => finalTime avg rest (wordsLoop avg (wordsOf seg.line) ("", t)).2

/-- `x || 0` on a non-negative number: 0 is falsy, everything else truthy. -/
def jsOrZero (n : Nat) : Nat := if n = 0 then 0 else n

/-- Total word count of the native-binary variant:
`dialogue.reduce((sum, seg) => sum + (seg.line.split(/\s+/).filter(Boolean).length || 0), 0)`. -/
def totalWordsN (d : Dialogue) : Nat :=
  d.foldl (fun sum seg => sum + jsOrZero (wordsOf seg.line).length) 0

/-- Total word count of the WASM variant:
`dialogue.reduce((sum, seg) => sum + seg.line.split(/\s+/).filter(Boolean).length, 0)`. -/
def totalWordsW (d : Dialogue) : Nat :=
  d.foldl (fun sum seg => sum + (wordsOf seg.line).length) 0

/-- `avgTimePerWord` as computed by the native-binary variant. -/
def avgTimePerWord (d : Dialogue) (audioDuration : ℚ) : ℚ :=
  if 0 < totalWordsN d then audioDuration / totalWordsN d else 0

/-- The seven lines of the fixed document header. -/
def headerLines : List String :=
  ["[Script Info]",
   "Title: Viral Clip Subtitles",
   "ScriptType: v4.00+",
   "[V4+ Styles]",
   "Style: DefaultV2,Arial,48,&H00FFFFFF,&H0000FFFF,&H00000000,&H99000000,-1,0,0,0,100,100,0,0,1,2,1,8,10,10,100,1",
   "[Events]",
   "Format: Layer, Start, End, Style, Name, MarginL, MarginR, MarginV, Effect, Text"]

/-- The fixed header template, exactly as in both source variants. -/
def assHeader : String :=
  "[Script Info]\nTitle: Viral Clip Subtitles\nScriptType: v4.00+\n[V4+ Styles]\nStyle: DefaultV2,Arial,48,&H00FFFFFF,&H0000FFFF,&H00000000,&H99000000,-1,0,0,0,100,100,0,0,1,2,1,8,10,10,100,1\n[Events]\nFormat: Layer, Start, End, Style, Name, MarginL, MarginR, MarginV, Effect, Text\n"

/-- `createAssSubtitle` of src/api/process-job.js (native-binary handler). -/
def createAssSubtitle (dialogue : Dialogue) (audioDuration : ℚ) : String :=
  let totalWords := totalWordsN dialogue
  let avg := if 0 < totalWords then audioDuration / totalWords else 0
  assHeader ++ eventsStr avg dialogue 0 ""

/-- `createAssSubtitle` of the unnamed WASM handler variant. -/
def createAssSubtitleWasm (dialogue : Dialogue) (audioDuration : ℚ) : String :=
  let totalWords := totalWordsW dialogue
  let avg := if 0 < totalWords then audioDuration / totalWords else 0
  assHeader ++ eventsStr avg dialogue 0 ""

/-- Split a character list at every newline (the lines of a document;
a trailing newline yields a final empty line). -/
def splitNl : List Char → List (List Char)
  | [] => [[]]
  | c :: cs =>
    match splitNl cs with
    | [] => [[c]]
    | l :: ls => if c = '\n' then [] :: l :: ls else (c :: l) :: ls

/-! ### Helper lemmas about the timestamp formatter -/

theorem natToCharsAux_length_ge (fuel : ℕ) :
    ∀ (n : ℕ) (acc : List Char), acc.length ≤ (natToCharsAux fuel n acc).length := by
  induction fuel with
  | zero => intro n acc; simp [natToCharsAux]
  | succ f ih =>
    intro n acc
    rw [natToCharsAux]
    split
    · simp
    · calc acc.length ≤ (digitChar (n % 10) :: acc).length := by simp
        _ ≤ _ := ih (n / 10) (digitChar (n % 10) :: acc)

theorem natStr_length_pos (n : ℕ) : 1 ≤ (natStr n).length := by
  have h := natToCharsAux_length_ge n (n / 10) [digitChar (n % 10)]
  show 1 ≤ (natToChars n).length
  unfold natToChars
  rw [natToCharsAux]
  split
  · simp
  · simpa using h

theorem natToCharsAux_length_le (fuel : ℕ) :
    ∀ (n k : ℕ) (acc : List Char), 1 ≤ k → n < 10 ^ k →
      (natToCharsAux fuel n acc).length ≤ k + acc.length := by
  induction fuel with
  | zero => intro n k acc _ _; simp [natToCharsAux]
  | succ f ih =>
    intro n k acc hk hn
    rw [natToCharsAux]
    split
    · simp; omega
    · obtain ⟨j, rfl⟩ : ∃ j, k = j + 1 := ⟨k - 1, by omega⟩
      rw [pow_succ] at hn
      have hj : 1 ≤ j := by
        by_contra hj0
        have : j = 0 := by omega
        subst this
        simp at hn
        omega
      have hdiv : n / 10 < 10 ^ j := by
        rw [Nat.div_lt_iff_lt_mul (by norm_num)]
        exact hn
      calc (natToCharsAux f (n / 10) (digitChar (n % 10) :: acc)).length
          ≤ j + (digitChar (n % 10) :: acc).length := ih (n / 10) j _ hj hdiv
        _ ≤ (j + 1) + acc.length := by simp; omega

theorem natStr_length_le_two (n : ℕ) (h : n < 100) : (natStr n).length ≤ 2 := by
  show (natToChars n).length ≤ 2
  have := natToCharsAux_length_le (n + 1) n 2 [] (by omega) (by norm_num; omega)
  simpa [natToChars] using this

theorem padZero_length (n : ℕ) (s : String) : (padZero n s).length = max n s.length := by
  show (List.replicate (n - s.length) '0' ++ s.data).length = max n s.length
  rw [List.length_append, List.length_replicate]
  have : s.data.length = s.length := rfl
  omega

theorem padZero_of_length_pos (s : String) (h : 1 ≤ s.length) : padZero 1 s = s := by
  unfold padZero
  rw [show 1 - s.length = 0 by omega]
  rfl

/-- On a non-negative in-range rational, `formatTime` renders the
truncated millisecond count through `mkTimestamp`. -/
theorem formatTime_pos (q : ℚ) (h0 : 0 ≤ q) (hclip : 1000 * q ≤ dateClipBound) :
    formatTime (JSNum.num q) = mkTimestamp (⌊1000 * q⌋).toNat := by
  have hc : (jsIsNaN (JSNum.num q) || jsLtZero (JSNum.num q)) = false := by
    simp [jsIsNaN, jsLtZero, not_lt.2 h0]
  unfold formatTime
  rw [hc]
  simp only [Bool.false_eq_true, if_false]
  rw [if_neg (not_lt.2 hclip)]

theorem formatTime_eval (q : ℚ) (ms : ℕ) (h0 : 0 ≤ q) (hclip : 1000 * q ≤ dateClipBound)
    (hms : ⌊1000 * q⌋ = (ms : ℤ)) : formatTime (JSNum.num q) = mkTimestamp ms := by
  rw [formatTime_pos q h0 hclip, hms, Int.toNat_natCast]

/-- Inputs sanitized to 0 format like the number 0. -/
theorem formatTime_of_sanitized (x : JSNum) (hx : (jsIsNaN x || jsLtZero x) = true) :
    formatTime x = formatTime (JSNum.num 0) := by
  unfold formatTime
  rw [hx]
  simp

theorem formatTime_zero_lit : formatTime (JSNum.num 0) = "0:00:00.00" := by
  rw [formatTime_eval 0 0 (le_refl 0) (by norm_num [dateClipBound]) (by norm_num)]
  decide

/-! ### C4: the millisecond derivation of the timestamp formatter -/

/-- C4 counterexample: the code truncates `seconds * 1000` (Date clipping)
rather than rounding it, and reduces hours modulo 24.  At 23/128 seconds
(exactly representable in binary floating point, product exact) the code
renders centiseconds 17 while the claimed formula gives 18; at 86400
seconds the claimed hours field is 24 while the code renders 0. -/
theorem formatTime_rounding_cex :
    formatTime (JSNum.num (23 / 128)) = "0:00:00.17" ∧
    ((round ((23 / 128 : ℚ) * 1000)).toNat % 1000) / 10 = 18 ∧
    formatTime (JSNum.num 86400) = "0:00:00.00" ∧
    (round ((86400 : ℚ) * 1000)).toNat / 3600000 = 24 := by
  refine ⟨?_, ?_, ?_, ?_⟩
  · rw [formatTime_eval (23 / 128) 179 (by norm_num) (by norm_num [dateClipBound])
      (by rw [Int.floor_eq_iff]; norm_num)]
    decide
  · rw [show round ((23 / 128 : ℚ) * 1000) = 180 by rw [round_eq, Int.floor_eq_iff]; norm_num]
    decide
  · rw [formatTime_eval 86400 86400000 (by norm_num) (by norm_num [dateClipBound])
      (by norm_num)]
    decide
  · rw [show round ((86400 : ℚ) * 1000) = 86400000 by rw [round_eq, Int.floor_eq_iff]; norm_num]
    decide

/-- C4 (amended): for every non-negative in-range seconds input, the
total millisecond count is `floor(seconds * 1000)` (truncated by the Date
constructor, not rounded), hours are `floor(total / 3600000) mod 24`, and
the remaining fields are as claimed. -/
theorem formatTime_derivation (q : ℚ) (h0 : 0 ≤ q) (hclip : 1000 * q ≤ dateClipBound) :
    formatTime (JSNum.num q) =
      padZero 1 (natStr ((⌊1000 * q⌋).toNat / 3600000 % 24)) ++ ":" ++
      padZero 2 (natStr ((⌊1000 * q⌋).toNat / 60000 % 60)) ++ ":" ++
      padZero 2 (natStr ((⌊1000 * q⌋).toNat / 1000 % 60)) ++ "." ++
      padZero 2 (natStr ((⌊1000 * q⌋).toNat % 1000 / 10)) := by
  rw [formatTime_pos q h0 hclip]
  rfl

/-- Witness for C4's amended theorem at 23/128 seconds. -/
theorem formatTime_derivation_witness :
    0 ≤ (23 / 128 : ℚ) ∧ 1000 * (23 / 128 : ℚ) ≤ dateClipBound ∧
    formatTime (JSNum.num (23 / 128)) =
      padZero 1 (natStr ((⌊1000 * (23 / 128 : ℚ)⌋).toNat / 3600000 % 24)) ++ ":" ++
      padZero 2 (natStr ((⌊1000 * (23 / 128 : ℚ)⌋).toNat / 60000 % 60)) ++ ":" ++
      padZero 2 (natStr ((⌊1000 * (23 / 128 : ℚ)⌋).toNat / 1000 % 60)) ++ "." ++
      padZero 2 (natStr ((⌊1000 * (23 / 128 : ℚ)⌋).toNat % 1000 / 10)) :=
  ⟨by norm_num, by norm_num [dateClipBound],
    formatTime_derivation (23 / 128) (by norm_num) (by norm_num [dateClipBound])⟩

/-! ### C5: the hours field of the timestamp formatter -/

/-- C5 counterexample: at 86400 seconds (24 hours) the true total hour
count is 24, but the formatter renders the hours field as 0 because
`getUTCHours` is the hour of day (reduced modulo 24). -/
theorem formatTime_hours_wrap_cex :
    formatTime (JSNum.num 86400) = "0:00:00.00" ∧
    (⌊1000 * (86400 : ℚ)⌋).toNat / 3600000 = 24 ∧
    ("0:00:00.00" : String) ≠ "24:00:00.00" := by
  refine ⟨?_, ?_, by decide⟩
  · rw [formatTime_eval 86400 86400000 (by norm_num) (by norm_num [dateClipBound])
      (by norm_num)]
    decide
  · rw [show ⌊1000 * (86400 : ℚ)⌋ = 86400000 by norm_num]
    decide

/-- C5 (amended): for every non-negative in-range seconds input the
output has shape `H:MM:SS.CC` with `H` the hour of day (total hours
reduced modulo 24, so 1 or 2 digits, minimum 1) and `MM`/`SS`/`CC`
exactly 2 digits each. -/
theorem formatTime_field_widths (q : ℚ) (h0 : 0 ≤ q) (hclip : 1000 * q ≤ dateClipBound) :
    ∃ hh mm ss cc : String,
      formatTime (JSNum.num q) = hh ++ ":" ++ mm ++ ":" ++ ss ++ "." ++ cc ∧
      hh = natStr ((⌊1000 * q⌋).toNat / 3600000 % 24) ∧
      1 ≤ hh.length ∧ hh.length ≤ 2 ∧
      mm.length = 2 ∧ ss.length = 2 ∧ cc.length = 2 := by
  refine ⟨natStr ((⌊1000 * q⌋).toNat / 3600000 % 24),
    padZero 2 (natStr ((⌊1000 * q⌋).toNat / 60000 % 60)),
    padZero 2 (natStr ((⌊1000 * q⌋).toNat / 1000 % 60)),
    padZero 2 (natStr ((⌊1000 * q⌋).toNat % 1000 / 10)), ?_, rfl, ?_, ?_, ?_, ?_, ?_⟩
  · rw [formatTime_pos q h0 hclip]
    unfold mkTimestamp
    rw [padZero_of_length_pos _ (natStr_length_pos _)]
  · exact natStr_length_pos _
  · exact natStr_length_le_two _ (by omega)
  · rw [padZero_length]
    have h1 := natStr_length_pos ((⌊1000 * q⌋).toNat / 60000 % 60)
    have h2 := natStr_length_le_two ((⌊1000 * q⌋).toNat / 60000 % 60) (by omega)
    omega
  · rw [padZero_length]
    have h1 := natStr_length_pos ((⌊1000 * q⌋).toNat / 1000 % 60)
    have h2 := natStr_length_le_two ((⌊1000 * q⌋).toNat / 1000 % 60) (by omega)
    omega
  · rw [padZero_length]
    have h1 := natStr_length_pos ((⌊1000 * q⌋).toNat % 1000 / 10)
    have h2 := natStr_length_le_two ((⌊1000 * q⌋).toNat % 1000 / 10) (by omega)
    omega

/-- Witness for C5's amended theorem at 86400 seconds. -/
theorem formatTime_field_widths_witness :
    0 ≤ (86400 : ℚ) ∧ 1000 * (86400 : ℚ) ≤ dateClipBound ∧
    (∃ hh mm ss cc : String,
      formatTime (JSNum.num 86400) = hh ++ ":" ++ mm ++ ":" ++ ss ++ "." ++ cc ∧
      hh = natStr ((⌊1000 * (86400 : ℚ)⌋).toNat / 3600000 % 24) ∧
      1 ≤ hh.length ∧ hh.length ≤ 2 ∧
      mm.length = 2 ∧ ss.length = 2 ∧ cc.length = 2) :=
  ⟨by norm_num, by norm_num [dateClipBound],
    formatTime_field_widths 86400 (by norm_num) (by norm_num [dateClipBound])⟩

/-! ### C6: sanitation of invalid formatter inputs -/

/-- C6 counterexample: a positive-infinite input is not sanitized (the
guard only checks `isNaN` and `< 0`), so the formatter emits the
malformed timestamp `NaN:NaN:NaN.NaN` instead of the output for 0. -/
theorem formatTime_infinity_cex :
    formatTime JSNum.inf = "NaN:NaN:NaN.NaN" ∧
    formatTime (JSNum.num 0) = "0:00:00.00" ∧
    ("NaN:NaN:NaN.NaN" : String) ≠ "0:00:00.00" :=
  ⟨rfl, formatTime_zero_lit, by decide⟩

/-- C6 (amended): negative, NaN and negative-infinite inputs are all
sanitized to 0 and render as `0:00:00.00`; a positive-infinite input is
not sanitized and renders as the malformed `NaN:NaN:NaN.NaN`. -/
theorem formatTime_sanitize (q : ℚ) (h : q < 0) :
    formatTime (JSNum.num q) = "0:00:00.00" ∧
    formatTime JSNum.nan = "0:00:00.00" ∧
    formatTime JSNum.negInf = "0:00:00.00" ∧
    formatTime JSNum.inf = "NaN:NaN:NaN.NaN" := by
  refine ⟨?_, ?_, ?_, rfl⟩
  · exact (formatTime_of_sanitized _ (by simp [jsIsNaN, jsLtZero, h])).trans formatTime_zero_lit
  · exact (formatTime_of_sanitized _ (by simp [jsIsNaN])).trans formatTime_zero_lit
  · exact (formatTime_of_sanitized _ (by simp [jsIsNaN, jsLtZero])).trans formatTime_zero_lit

/-- Witness for C6's amended theorem at -5 seconds. -/
theorem formatTime_sanitize_witness :
    (-5 : ℚ) < 0 ∧
    (formatTime (JSNum.num (-5)) = "0:00:00.00" ∧
     formatTime JSNum.nan = "0:00:00.00" ∧
     formatTime JSNum.negInf = "0:00:00.00" ∧
     formatTime JSNum.inf = "NaN:NaN:NaN.NaN") :=
  ⟨by norm_num, formatTime_sanitize (-5) (by norm_num)⟩

/-! ### Helper lemmas about word counting and the time cursor -/

theorem jsOrZero_eq (n : ℕ) : jsOrZero n = n := by
  unfold jsOrZero
  split <;> omega

theorem foldl_add_init (f : Segment → ℕ) (d : Dialogue) :
    ∀ n : ℕ, d.foldl (fun s seg => s + f seg) n = n + (d.map f).sum := by
  induction d with
  | nil => intro n; simp
  | cons seg rest ih => intro n; simp [List.foldl_cons, ih]; omega

theorem totalWordsN_eq_sum (d : Dialogue) :
    totalWordsN d = (d.map fun seg => (wordsOf seg.line).length).sum := by
  unfold totalWordsN
  simp only [jsOrZero_eq]
  simpa using foldl_add_init _ d 0

theorem totalWordsW_eq_sum (d : Dialogue) :
    totalWordsW d = (d.map fun seg => (wordsOf seg.line).length).sum := by
  unfold totalWordsW
  simpa using foldl_add_init _ d 0

theorem totalWordsN_eq_W (d : Dialogue) : totalWordsN d = totalWordsW d := by
  rw [totalWordsN_eq_sum, totalWordsW_eq_sum]

theorem wordsLoop_snd (avg : ℚ) (ws : List String) :
    ∀ (l : String) (t : ℚ), (wordsLoop avg ws (l, t)).2 = t + ws.length * avg := by
  induction ws with
  | nil => intro l t; simp [wordsLoop]
  | cons w ws ih =>
    intro l t
    rw [wordsLoop, ih]
    simp only [List.length_cons]
    push_cast
    ring

theorem finalTime_eq (avg : ℚ) (d : Dialogue) :
    ∀ t : ℚ, finalTime avg d t = t + (totalWordsN d : ℚ) * avg := by
  induction d with
  | nil => intro t; simp [finalTime, totalWordsN_eq_sum]
  | cons seg rest ih =>
    intro t
    rw [finalTime, wordsLoop_snd, ih]
    rw [totalWordsN_eq_sum, totalWordsN_eq_sum]
    simp only [List.map_cons, List.sum_cons]
    push_cast
    ring

theorem avgTimePerWord_nonneg (d : Dialogue) (D : ℚ) (hD : 0 ≤ D) :
    0 ≤ avgTimePerWord d D := by
  unfold avgTimePerWord
  split
  · positivity
  · exact le_refl 0

/-! ### C7: the word-timing allocator -/

/-- C7: `averageWordDuration` is 0 when the transcript has no words and
`duration / totalWords` otherwise, and it is always non-negative (the
division by zero is guarded). -/
theorem avgTimePerWord_spec (d : Dialogue) (D : ℚ) (hD : 0 ≤ D) :
    avgTimePerWord d D = (if totalWordsN d = 0 then 0 else D / (totalWordsN d : ℚ)) ∧
    0 ≤ avgTimePerWord d D := by
  constructor
  · unfold avgTimePerWord
    by_cases h : totalWordsN d = 0
    · simp [h]
    · simp [h, Nat.pos_of_ne_zero h]
  · exact avgTimePerWord_nonneg d D hD

/-- Witness for C7 on a one-segment transcript of two words. -/
theorem avgTimePerWord_spec_witness :
    0 ≤ (2 : ℚ) ∧
    (avgTimePerWord [Segment.mk "hi there"] 2 =
      (if totalWordsN [Segment.mk "hi there"] = 0 then 0
       else 2 / (totalWordsN [Segment.mk "hi there"] : ℚ)) ∧
     0 ≤ avgTimePerWord [Segment.mk "hi there"] 2) :=
  ⟨by norm_num, avgTimePerWord_spec [Segment.mk "hi there"] 2 (by norm_num)⟩

/-! ### C2: per-word durations sum to the total duration -/

/-- C2: with a positive total word count, the word durations (the average
added to the cursor once per word) sum to exactly the supplied duration,
and the cursor ends exactly at the duration. -/
theorem duration_sum_eq_total (d : Dialogue) (D : ℚ) (_hD : 0 ≤ D)
    (hW : 0 < totalWordsN d) :
    (totalWordsN d : ℚ) * avgTimePerWord d D = D ∧
    finalTime (avgTimePerWord d D) d 0 = D := by
  have hne : (totalWordsN d : ℚ) ≠ 0 := Nat.cast_ne_zero.2 (Nat.pos_iff_ne_zero.1 hW)
  have havg : avgTimePerWord d D = D / (totalWordsN d : ℚ) := by
    unfold avgTimePerWord
    rw [if_pos hW]
  have hmul : (totalWordsN d : ℚ) * avgTimePerWord d D = D := by
    rw [havg]
    field_simp
  refine ⟨hmul, ?_⟩
  rw [finalTime_eq, hmul, zero_add]

/-- Witness for C2 on the example transcript with duration 3. -/
theorem duration_sum_eq_total_witness :
    0 ≤ (3 : ℚ) ∧ 0 < totalWordsN [Segment.mk "hello world", Segment.mk "goodbye"] ∧
    ((totalWordsN [Segment.mk "hello world", Segment.mk "goodbye"] : ℚ) *
       avgTimePerWord [Segment.mk "hello world", Segment.mk "goodbye"] 3 = 3 ∧
     finalTime (avgTimePerWord [Segment.mk "hello world", Segment.mk "goodbye"] 3)
       [Segment.mk "hello world", Segment.mk "goodbye"] 0 = 3) :=
  ⟨by norm_num, by decide,
    duration_sum_eq_total [Segment.mk "hello world", Segment.mk "goodbye"] 3
      (by norm_num) (by decide)⟩

/-! ### C3: events are ordered and contiguous -/

theorem segEvents_fst_le (avg : ℚ) (havg : 0 ≤ avg) :
    ∀ (d : Dialogue) (t : ℚ), ∀ e ∈ segEvents avg d t, e.1 ≤ e.2.1 := by
  intro d
  induction d with
  | nil => intro t e he; simp [segEvents] at he
  | cons seg rest ih =>
    intro t e he
    simp only [segEvents] at he
    rcases List.mem_cons.1 he with rfl | hmem
    · show t ≤ (wordsLoop avg (wordsOf seg.line) ("", t)).2
      rw [wordsLoop_snd]
      have : 0 ≤ ((wordsOf seg.line).length : ℚ) * avg := by positivity
      linarith
    · exact ih _ e hmem

theorem segEvents_chain (avg : ℚ) :
    ∀ (d : Dialogue) (t : ℚ) (i : ℕ) (a b : ℚ × ℚ × String),
      (segEvents avg d t).get? i = some a →
      (segEvents avg d t).get? (i + 1) = some b → a.2.1 = b.1 := by
  intro d
  induction d with
  | nil => intro t i a b ha _; simp [segEvents] at ha
  | cons seg rest ih =>
    intro t i a b ha hb
    simp only [segEvents] at ha hb
    cases i with
    | zero =>
      rw [List.get?_cons_zero] at ha
      rw [List.get?_cons_succ] at hb
      obtain rfl : (t, (wordsLoop avg (wordsOf seg.line) ("", t)).2,
          (wordsLoop avg (wordsOf seg.line) ("", t)).1) = a := by
        exact Option.some.inj ha
      cases rest with
      | nil => simp [segEvents] at hb
      | cons seg2 r2 =>
        simp only [segEvents, List.get?_cons_zero] at hb
        obtain rfl : ((wordsLoop avg (wordsOf seg.line) ("", t)).2,
            (wordsLoop avg (wordsOf seg2.line)
              ("", (wordsLoop avg (wordsOf seg.line) ("", t)).2)).2,
            (wordsLoop avg (wordsOf seg2.line)
              ("", (wordsLoop avg (wordsOf seg.line) ("", t)).2)).1) = b := by
          exact Option.some.inj hb
        rfl
    | succ j =>
      rw [List.get?_cons_succ] at ha hb
      exact ih _ j a b ha hb

/-- C3: every generated event has startTime ≤ endTime, and consecutive
events are contiguous (event i's endTime is event i+1's startTime), so
the (startTime, endTime) sequence is non-decreasing. -/
theorem events_monotone_contiguous (d : Dialogue) (D : ℚ) (hD : 0 ≤ D) :
    (∀ e ∈ segEvents (avgTimePerWord d D) d 0, e.1 ≤ e.2.1) ∧
    (∀ (i : ℕ) (a b : ℚ × ℚ × String),
      (segEvents (avgTimePerWord d D) d 0).get? i = some a →
      (segEvents (avgTimePerWord d D) d 0).get? (i + 1) = some b →
      a.1 ≤ b.1 ∧ a.2.1 = b.1) := by
  have havg := avgTimePerWord_nonneg d D hD
  refine ⟨segEvents_fst_le _ havg d 0, ?_⟩
  intro i a b ha hb
  have hchain := segEvents_chain (avgTimePerWord d D) d 0 i a b ha hb
  have hmem : a ∈ segEvents (avgTimePerWord d D) d 0 := List.get?_mem ha
  have hle := segEvents_fst_le _ havg d 0 a hmem
  exact ⟨hchain ▸ le_trans hle (le_refl _), hchain⟩

/-- Witness for C3 on the example transcript with duration 3. -/
theorem events_monotone_contiguous_witness :
    0 ≤ (3 : ℚ) ∧
    ((∀ e ∈ segEvents (avgTimePerWord [Segment.mk "hello world", Segment.mk "goodbye"] 3)
        [Segment.mk "hello world", Segment.mk "goodbye"] 0, e.1 ≤ e.2.1) ∧
     (∀ (i : ℕ) (a b : ℚ × ℚ × String),
       (segEvents (avgTimePerWord [Segment.mk "hello world", Segment.mk "goodbye"] 3)
         [Segment.mk "hello world", Segment.mk "goodbye"] 0).get? i = some a →
       (segEvents (avgTimePerWord [Segment.mk "hello world", Segment.mk "goodbye"] 3)
         [Segment.mk "hello world", Segment.mk "goodbye"] 0).get? (i + 1) = some b →
       a.1 ≤ b.1 ∧ a.2.1 = b.1)) :=
  ⟨by norm_num,
    events_monotone_contiguous [Segment.mk "hello world", Segment.mk "goodbye"] 3 (by norm_num)⟩

/-! ### C8: zero-word segments still produce an event -/

theorem segEvents_length (avg : ℚ) :
    ∀ (d : Dialogue) (t : ℚ), (segEvents avg d t).length = d.length := by
  intro d
  induction d with
  | nil => intro t; simp [segEvents]
  | cons seg rest ih => intro t; simp only [segEvents, List.length_cons, ih]

theorem segEvents_zero_word_get (avg : ℚ) (seg : Segment) (d2 : Dialogue)
    (hseg : wordsOf seg.line = []) :
    ∀ (d1 : Dialogue) (t : ℚ),
      ∃ u : ℚ, (segEvents avg (d1 ++ seg :: d2) t).get? d1.length = some (u, u, "") := by
  intro d1
  induction d1 with
  | nil =>
    intro t
    refine ⟨t, ?_⟩
    simp only [List.nil_append, segEvents, hseg, wordsLoop, List.length_nil,
      List.get?_cons_zero]
  | cons s1 r1 ih =>
    intro t
    obtain ⟨u, hu⟩ := ih (wordsLoop avg (wordsOf s1.line) ("", t)).2
    refine ⟨u, ?_⟩
    simp only [List.cons_append, segEvents, List.length_cons, List.get?_cons_succ]
    exact hu

/-- C8: a segment whose line has no words is neither skipped nor a
failure: the generated events still have one entry per segment, and the
zero-word segment's entry has equal start and end time and empty tagged
text. -/
theorem zero_word_segment_event (d1 d2 : Dialogue) (seg : Segment) (D : ℚ)
    (hseg : wordsOf seg.line = []) :
    (segEvents (avgTimePerWord (d1 ++ seg :: d2) D) (d1 ++ seg :: d2) 0).length =
      (d1 ++ seg :: d2).length ∧
    ∃ u : ℚ,
      (segEvents (avgTimePerWord (d1 ++ seg :: d2) D) (d1 ++ seg :: d2) 0).get? d1.length =
        some (u, u, "") :=
  ⟨segEvents_length _ _ 0, segEvents_zero_word_get _ seg d2 hseg d1 0⟩

/-- Witness for C8: a whitespace-only segment between two non-empty ones. -/
theorem zero_word_segment_event_witness :
    wordsOf (Segment.mk "  ").line = [] ∧
    ((segEvents (avgTimePerWord [Segment.mk "hi", Segment.mk "  ", Segment.mk "yo"] 4)
        [Segment.mk "hi", Segment.mk "  ", Segment.mk "yo"] 0).length =
      [Segment.mk "hi", Segment.mk "  ", Segment.mk "yo"].length ∧
     ∃ u : ℚ,
       (segEvents (avgTimePerWord [Segment.mk "hi", Segment.mk "  ", Segment.mk "yo"] 4)
         [Segment.mk "hi", Segment.mk "  ", Segment.mk "yo"] 0).get? 1 = some (u, u, "")) :=
  ⟨by decide,
    zero_word_segment_event [Segment.mk "hi"] [Segment.mk "yo"] (Segment.mk "  ") 4 (by decide)⟩

/-! ### C10: the two handler variants agree -/

/-- C10: the native-binary and WASM copies of `createAssSubtitle` return
identical strings on every input (`length || 0` equals `length`). -/
theorem variants_agree (d : Dialogue) (D : ℚ) :
    createAssSubtitle d D = createAssSubtitleWasm d D := by
  simp only [createAssSubtitle, createAssSubtitleWasm, totalWordsN_eq_W]

/-! ### C1: the end-to-end example -/

theorem karaokeTag_one : karaokeTag 1 = "\x7b\\k100\x7d" := by
  unfold karaokeTag jsRound
  rw [show ⌊(1 : ℚ) * 100 + 1 / 2⌋ = 100 by rw [Int.floor_eq_iff]; norm_num]
  decide

theorem wordsLoop_hello :
    wordsLoop 1 ["hello", "world"] ("", 0) = ("\x7b\\k100\x7dhello \x7b\\k100\x7dworld ", 2) := by
  simp only [wordsLoop, karaokeTag_one, Prod.mk.injEq]
  exact ⟨by decide, by norm_num⟩

theorem wordsLoop_goodbye :
    wordsLoop 1 ["goodbye"] ("", 2) = ("\x7b\\k100\x7dgoodbye ", 3) := by
  simp only [wordsLoop, karaokeTag_one, Prod.mk.injEq]
  exact ⟨by decide, by norm_num⟩

theorem formatTime_two : formatTime (JSNum.num 2) = "0:00:02.00" := by
  rw [formatTime_eval 2 2000 (by norm_num) (by norm_num [dateClipBound]) (by norm_num)]
  decide

theorem formatTime_three : formatTime (JSNum.num 3) = "0:00:03.00" := by
  rw [formatTime_eval 3 3000 (by norm_num) (by norm_num [dateClipBound]) (by norm_num)]
  decide

theorem dialogueLine_one :
    dialogueLine 0 2 "\x7b\\k100\x7dhello \x7b\\k100\x7dworld " =
      "Dialogue: 0,0:00:00.00,0:00:02.00,DefaultV2,,0,0,0,,\x7b\\k100\x7dhello \x7b\\k100\x7dworld" := by
  unfold dialogueLine
  rw [formatTime_zero_lit, formatTime_two]
  decide

theorem dialogueLine_two :
    dialogueLine 2 3 "\x7b\\k100\x7dgoodbye " =
      "Dialogue: 0,0:00:02.00,0:00:03.00,DefaultV2,,0,0,0,,\x7b\\k100\x7dgoodbye" := by
  unfold dialogueLine
  rw [formatTime_two, formatTime_three]
  decide

set_option maxRecDepth 4000 in
/-- C1: on the transcript [hello world, goodbye] with duration 3 the
average word duration is 1, and the generated document consists of the
fixed header plus exactly two Dialogue lines with start/end times
0:00:00.00-0:00:02.00 and 0:00:02.00-0:00:03.00, every karaoke tag
encoding 100 centiseconds. -/
theorem end_to_end_example :
    avgTimePerWord [Segment.mk "hello world", Segment.mk "goodbye"] 3 = 1 ∧
    createAssSubtitle [Segment.mk "hello world", Segment.mk "goodbye"] 3 =
      "[Script Info]\nTitle: Viral Clip Subtitles\nScriptType: v4.00+\n[V4+ Styles]\nStyle: DefaultV2,Arial,48,&H00FFFFFF,&H0000FFFF,&H00000000,&H99000000,-1,0,0,0,100,100,0,0,1,2,1,8,10,10,100,1\n[Events]\nFormat: Layer, Start, End, Style, Name, MarginL, MarginR, MarginV, Effect, Text\nDialogue: 0,0:00:00.00,0:00:02.00,DefaultV2,,0,0,0,,\x7b\\k100\x7dhello \x7b\\k100\x7dworld\nDialogue: 0,0:00:02.00,0:00:03.00,DefaultV2,,0,0,0,,\x7b\\k100\x7dgoodbye\n" := by
  have h3 : totalWordsN [Segment.mk "hello world", Segment.mk "goodbye"] = 3 := by decide
  have havg : avgTimePerWord [Segment.mk "hello world", Segment.mk "goodbye"] 3 = 1 := by
    unfold avgTimePerWord
    rw [h3]
    norm_num
  refine ⟨havg, ?_⟩
  show createAssSubtitle [Segment.mk "hello world", Segment.mk "goodbye"] 3 = _
  unfold createAssSubtitle
  rw [h3]
  norm_num
  simp only [eventsStr,
    show wordsOf (Segment.mk "hello world").line = ["hello", "world"] by decide,
    show wordsOf (Segment.mk "goodbye").line = ["goodbye"] by decide,
    wordsLoop_hello]
  simp only [wordsLoop_goodbye, dialogueLine_one, dialogueLine_two]
  decide

/-! ### C9: document line structure -/

theorem splitNl_ne_nil (l : List Char) : splitNl l ≠ [] := by
  cases l with
  | nil => simp [splitNl]
  | cons c cs =>
    rw [splitNl]
    rcases h : splitNl cs with _ | ⟨a, as⟩
    · simp
    · show (if c = '\n' then [] :: a :: as else (c :: a) :: as) ≠ []
      split <;> simp

theorem splitNl_append_line (a : List Char) (ha : '\n' ∉ a) (r : List Char) :
    splitNl (a ++ '\n' :: r) = a :: splitNl r := by
  induction a with
  | nil =>
    simp only [List.nil_append]
    rw [splitNl]
    rcases h : splitNl r with _ | ⟨x, xs⟩
    · exact absurd h (splitNl_ne_nil r)
    · simp
  | cons c a ih =>
    have hc : c ≠ '\n' := fun e => ha (e ▸ List.mem_cons_self c a)
    have ha' : '\n' ∉ a := fun e => ha (List.mem_cons_of_mem c e)
    simp only [List.cons_append]
    rw [splitNl, ih ha']
    simp [hc]

theorem splitNl_flatten_append (ls : List (List Char)) (h : ∀ l ∈ ls, '\n' ∉ l)
    (r : List Char) :
    splitNl ((ls.map (fun l => l ++ ['\n'])).flatten ++ r) = ls ++ splitNl r := by
  induction ls with
  | nil => simp
  | cons l ls ih =>
    have hl : '\n' ∉ l := h l (List.mem_cons_self l ls)
    have hls : ∀ x ∈ ls, '\n' ∉ x := fun x hx => h x (List.mem_cons_of_mem l hx)
    simp only [List.map_cons, List.flatten_cons, List.append_assoc, List.singleton_append,
      List.cons_append, List.nil_append]
    rw [splitNl_append_line l hl, ih hls]

theorem digitChar_ne_newline (d : ℕ) (h : d < 10) : digitChar d ≠ '\n' := by
  interval_cases d <;> decide

theorem not_newline_natToCharsAux (fuel : ℕ) :
    ∀ (n : ℕ) (acc : List Char), '\n' ∉ acc → '\n' ∉ natToCharsAux fuel n acc := by
  induction fuel with
  | zero => intro n acc hacc; simpa [natToCharsAux] using hacc
  | succ f ih =>
    intro n acc hacc
    rw [natToCharsAux]
    split
    · intro hmem
      rcases List.mem_cons.1 hmem with heq | hmem2
      · exact digitChar_ne_newline n (by omega) heq.symm
      · exact hacc hmem2
    · refine ih (n / 10) _ ?_
      intro hmem
      rcases List.mem_cons.1 hmem with heq | hmem2
      · exact digitChar_ne_newline (n % 10) (by omega) heq.symm
      · exact hacc hmem2

theorem not_newline_natStr (n : ℕ) : '\n' ∉ (natStr n).data :=
  not_newline_natToCharsAux (n + 1) n [] (by simp)

theorem not_newline_append (s t : String) (hs : '\n' ∉ s.data) (ht : '\n' ∉ t.data) :
    '\n' ∉ (s ++ t).data := by
  rw [String.data_append]
  intro h
  rcases List.mem_append.1 h with h | h
  · exact hs h
  · exact ht h

theorem not_newline_intStr (i : ℤ) : '\n' ∉ (intStr i).data := by
  unfold intStr
  split
  · exact not_newline_append _ _ (by decide) (not_newline_natStr _)
  · exact not_newline_natStr _

theorem not_newline_padZero (n : ℕ) (s : String) (hs : '\n' ∉ s.data) :
    '\n' ∉ (padZero n s).data := by
  show '\n' ∉ List.replicate (n - s.length) '0' ++ s.data
  intro h
  rcases List.mem_append.1 h with h | h
  · have := List.eq_of_mem_replicate h
    simp at this
  · exact hs h

theorem not_newline_mkTimestamp (ms : ℕ) : '\n' ∉ (mkTimestamp ms).data := by
  unfold mkTimestamp
  refine not_newline_append _ _ (not_newline_append _ _ (not_newline_append _ _
    (not_newline_append _ _ (not_newline_append _ _ (not_newline_append _ _
      (not_newline_padZero _ _ (not_newline_natStr _)) (by decide))
      (not_newline_padZero _ _ (not_newline_natStr _))) (by decide))
    (not_newline_padZero _ _ (not_newline_natStr _))) (by decide))
    (not_newline_padZero _ _ (not_newline_natStr _))

theorem formatTime_big (q : ℚ) (h0 : 0 ≤ q) (hclip : dateClipBound < 1000 * q) :
    formatTime (JSNum.num q) = nanTimestamp := by
  have hc : (jsIsNaN (JSNum.num q) || jsLtZero (JSNum.num q)) = false := by
    simp [jsIsNaN, jsLtZero, not_lt.2 h0]
  unfold formatTime
  rw [hc]
  simp only [Bool.false_eq_true, if_false]
  rw [if_pos hclip]

theorem formatTime_cases (x : JSNum) :
    formatTime x = nanTimestamp ∨ ∃ ms : ℕ, formatTime x = mkTimestamp ms := by
  have hzero : formatTime (JSNum.num 0) = mkTimestamp (⌊1000 * (0 : ℚ)⌋).toNat :=
    formatTime_pos 0 le_rfl (by norm_num [dateClipBound])
  cases x with
  | num q =>
    rcases lt_or_le q 0 with hq | hq
    · exact Or.inr ⟨_, (formatTime_of_sanitized _ (by simp [jsIsNaN, jsLtZero, hq])).trans hzero⟩
    · rcases le_or_lt (1000 * q) dateClipBound with hc | hc
      · exact Or.inr ⟨_, formatTime_pos q hq hc⟩
      · exact Or.inl (formatTime_big q hq hc)
  | nan => exact Or.inr ⟨_, (formatTime_of_sanitized _ (by simp [jsIsNaN])).trans hzero⟩
  | inf => exact Or.inl rfl
  | negInf =>
    exact Or.inr ⟨_, (formatTime_of_sanitized _ (by simp [jsIsNaN, jsLtZero])).trans hzero⟩

theorem not_newline_formatTime (x : JSNum) : '\n' ∉ (formatTime x).data := by
  rcases formatTime_cases x with h | ⟨ms, h⟩
  · rw [h]; decide
  · rw [h]; exact not_newline_mkTimestamp ms

theorem not_newline_karaokeTag (avg : ℚ) : '\n' ∉ (karaokeTag avg).data := by
  unfold karaokeTag
  exact not_newline_append _ _
    (not_newline_append _ _ (by decide) (not_newline_intStr _)) (by decide)

theorem wordsAux_no_ws :
    ∀ (cs acc : List Char), (∀ c ∈ acc, isJsWhitespace c = false) →
      ∀ w ∈ wordsAux cs acc, ∀ c ∈ w.data, isJsWhitespace c = false := by
  intro cs
  induction cs with
  | nil =>
    intro acc hacc w hw c hc
    rw [wordsAux] at hw
    split at hw
    · simp at hw
    · rcases List.mem_singleton.1 hw with rfl
      exact hacc c (List.mem_reverse.1 hc)
  | cons c0 cs ih =>
    intro acc hacc w hw c hc
    rw [wordsAux] at hw
    split at hw
    · split at hw
      · exact ih [] (by simp) w hw c hc
      · rcases List.mem_cons.1 hw with rfl | hw2
        · exact hacc c (List.mem_reverse.1 hc)
        · exact ih [] (by simp) w hw2 c hc
    · refine ih (c0 :: acc) ?_ w hw c hc
      intro c' hc'
      rcases List.mem_cons.1 hc' with rfl | hc2
      · rename_i hws
        exact Bool.not_eq_true _ ▸ (by simpa using hws)
      · exact hacc c' hc2

theorem wordsOf_no_ws (s : String) :
    ∀ w ∈ wordsOf s, ∀ c ∈ w.data, isJsWhitespace c = false :=
  wordsAux_no_ws s.data [] (by simp)

theorem not_newline_of_no_ws (w : String)
    (hw : ∀ c ∈ w.data, isJsWhitespace c = false) : '\n' ∉ w.data := by
  intro h
  have := hw '\n' h
  simp [isJsWhitespace] at this

theorem not_newline_wordsLoop (avg : ℚ) :
    ∀ (ws : List String) (l : String) (t : ℚ),
      '\n' ∉ l.data → (∀ w ∈ ws, ∀ c ∈ w.data, isJsWhitespace c = false) →
      '\n' ∉ (wordsLoop avg ws (l, t)).1.data := by
  intro ws
  induction ws with
  | nil => intro l t hl _; simpa [wordsLoop] using hl
  | cons w ws ih =>
    intro l t hl hws
    rw [wordsLoop]
    refine ih _ _ ?_ (fun x hx => hws x (List.mem_cons_of_mem w hx))
    refine not_newline_append _ _ hl (not_newline_append _ _ (not_newline_karaokeTag avg)
      (not_newline_append _ _ ?_ (by decide)))
    exact not_newline_of_no_ws w (hws w (List.mem_cons_self w ws))

theorem mem_dropWhile_mem (p : Char → Bool) (l : List Char) (c : Char)
    (h : c ∈ l.dropWhile p) : c ∈ l :=
  (List.dropWhile_suffix p).subset h

theorem not_newline_jsTrim (s : String) (hs : '\n' ∉ s.data) : '\n' ∉ (jsTrim s).data := by
  show '\n' ∉ ((s.data.dropWhile isJsWhitespace).reverse.dropWhile isJsWhitespace).reverse
  intro h
  exact hs (mem_dropWhile_mem _ _ _
    (List.mem_reverse.1 (mem_dropWhile_mem _ _ _ (List.mem_reverse.1 h))))

theorem not_newline_dialogueLine (s e : ℚ) (l : String) (hl : '\n' ∉ l.data) :
    '\n' ∉ (dialogueLine s e l).data := by
  unfold dialogueLine
  refine not_newline_append _ _ (not_newline_append _ _ (not_newline_append _ _
    (not_newline_append _ _ (not_newline_append _ _ (by decide)
      (not_newline_formatTime _)) (by decide)) (not_newline_formatTime _)) (by decide))
    (not_newline_jsTrim _ hl)

theorem segEvents_line_no_newline (avg : ℚ) :
    ∀ (d : Dialogue) (t : ℚ), ∀ e ∈ segEvents avg d t, '\n' ∉ e.2.2.data := by
  intro d
  induction d with
  | nil => intro t e he; simp [segEvents] at he
  | cons seg rest ih =>
    intro t e he
    simp only [segEvents] at he
    rcases List.mem_cons.1 he with rfl | hmem
    · exact not_newline_wordsLoop avg _ "" t (by simp) (wordsOf_no_ws seg.line)
    · exact ih _ e hmem

theorem eventsStr_data (avg : ℚ) :
    ∀ (d : Dialogue) (t : ℚ) (ev : String),
      (eventsStr avg d t ev).data =
        ev.data ++ ((segEvents avg d t).map
          (fun e => (dialogueLine e.1 e.2.1 e.2.2).data ++ ['\n'])).flatten := by
  intro d
  induction d with
  | nil => intro t ev; simp [eventsStr, segEvents]
  | cons seg rest ih =>
    intro t ev
    simp only [eventsStr, segEvents, List.map_cons, List.flatten_cons]
    rw [ih]
    simp only [String.data_append, List.append_assoc]

set_option maxRecDepth 4000 in
theorem assHeader_data :
    assHeader.data = ((headerLines.map String.data).map (fun l => l ++ ['\n'])).flatten := by
  decide

theorem createAssSubtitle_data (d : Dialogue) (D : ℚ) :
    (createAssSubtitle d D).data =
      ((headerLines.map String.data ++
        (segEvents (avgTimePerWord d D) d 0).map
          (fun e => (dialogueLine e.1 e.2.1 e.2.2).data)).map (fun l => l ++ ['\n'])).flatten := by
  show (assHeader ++ eventsStr (avgTimePerWord d D) d 0 "").data = _
  rw [String.data_append, eventsStr_data, assHeader_data]
  simp only [List.map_append, List.flatten_append, List.map_map]
  rfl

set_option maxRecDepth 4000 in
theorem splitNl_createAssSubtitle (d : Dialogue) (D : ℚ) :
    splitNl (createAssSubtitle d D).data =
      headerLines.map String.data ++
      (segEvents (avgTimePerWord d D) d 0).map
        (fun e => (dialogueLine e.1 e.2.1 e.2.2).data) ++ [[]] := by
  rw [createAssSubtitle_data]
  have hhdr : ∀ l ∈ headerLines.map String.data, '\n' ∉ l := by decide
  have hnn : ∀ l ∈ headerLines.map String.data ++
      (segEvents (avgTimePerWord d D) d 0).map
        (fun e => (dialogueLine e.1 e.2.1 e.2.2).data), '\n' ∉ l := by
    intro l hl
    rcases List.mem_append.1 hl with hh | he
    · exact hhdr l hh
    · rcases List.mem_map.1 he with ⟨e, hmem, rfl⟩
      exact not_newline_dialogueLine e.1 e.2.1 e.2.2
        (segEvents_line_no_newline _ d 0 e hmem)
  have hmain := splitNl_flatten_append _ hnn []
  rw [List.append_nil] at hmain
  rw [hmain]
  rfl

theorem dialogueLine_data_headed (s e : ℚ) (l : String) :
    ("Dialogue: 0,".data) <+: (dialogueLine s e l).data := by
  unfold dialogueLine
  simp only [String.data_append, List.append_assoc]
  exact List.prefix_append _ _

theorem dialogueLine_data_ne (s e : ℚ) (l : String) (T : String)
    (hT : ¬ ("Dialogue: 0,".data <+: T.data)) :
    (dialogueLine s e l).data ≠ T.data := by
  intro heq
  exact hT (heq ▸ dialogueLine_data_headed s e l)

set_option maxRecDepth 4000 in
/-- C9: the generated document has exactly one `[Script Info]` line, one
`[V4+ Styles]` line, one `[Events]` line, and exactly one line starting
with `Dialogue:` per transcript segment: words contain no whitespace, so
segment text never introduces additional lines. -/
theorem document_structure (d : Dialogue) (D : ℚ) (_hD : 0 ≤ D) :
    (splitNl (createAssSubtitle d D).data).count "[Script Info]".data = 1 ∧
    (splitNl (createAssSubtitle d D).data).count "[V4+ Styles]".data = 1 ∧
    (splitNl (createAssSubtitle d D).data).count "[Events]".data = 1 ∧
    (splitNl (createAssSubtitle d D).data).countP
      (fun l => ("Dialogue:".data).isPrefixOf l) = d.length := by
  rw [splitNl_createAssSubtitle]
  have hev_ne : ∀ T : String, ¬ ("Dialogue: 0,".data <+: T.data) →
      ((segEvents (avgTimePerWord d D) d 0).map
        (fun e => (dialogueLine e.1 e.2.1 e.2.2).data)).count T.data = 0 := by
    intro T hT
    rw [List.count_eq_zero]
    intro hmem
    rcases List.mem_map.1 hmem with ⟨e, _, heq⟩
    exact dialogueLine_data_ne e.1 e.2.1 e.2.2 T hT heq
  have hev_pre : ((segEvents (avgTimePerWord d D) d 0).map
      (fun e => (dialogueLine e.1 e.2.1 e.2.2).data)).countP
        (fun l => ("Dialogue:".data).isPrefixOf l) =
      (segEvents (avgTimePerWord d D) d 0).length := by
    rw [← List.length_map (segEvents (avgTimePerWord d D) d 0)
      (fun e => (dialogueLine e.1 e.2.1 e.2.2).data)]
    apply List.countP_eq_length.2
    intro a ha
    rcases List.mem_map.1 ha with ⟨e, _, rfl⟩
    exact List.isPrefixOf_iff_prefix.2
      (List.IsPrefix.trans (by decide) (dialogueLine_data_headed _ _ _))
  simp only [List.count_append, List.countP_append]
  refine ⟨?_, ?_, ?_, ?_⟩
  · rw [hev_ne "[Script Info]" (by decide)]
    decide
  · rw [hev_ne "[V4+ Styles]" (by decide)]
    decide
  · rw [hev_ne "[Events]" (by decide)]
    decide
  · rw [hev_pre, segEvents_length]
    rw [show List.countP (fun l => ("Dialogue:".data).isPrefixOf l)
      (headerLines.map String.data) = 0 from by decide]
    rw [show List.countP (fun l => ("Dialogue:".data).isPrefixOf l)
      [([] : List Char)] = 0 from by decide]
    omega

/-- Witness for C9 on a one-segment transcript. -/
theorem document_structure_witness :
    0 ≤ (1 : ℚ) ∧
    ((splitNl (createAssSubtitle [Segment.mk "hi"] 1).data).count "[Script Info]".data = 1 ∧
     (splitNl (createAssSubtitle [Segment.mk "hi"] 1).data).count "[V4+ Styles]".data = 1 ∧
     (splitNl (createAssSubtitle [Segment.mk "hi"] 1).data).count "[Events]".data = 1 ∧
     (splitNl (createAssSubtitle [Segment.mk "hi"] 1).data).countP
       (fun l => ("Dialogue:".data).isPrefixOf l) = [Segment.mk "hi"].length) :=
  ⟨by norm_num, document_structure [Segment.mk "hi"] 1 (by norm_num)⟩
